import Mathlib

/-!
Shallow embedding of the task/personnel dashboard application
(`App.tsx`, `Dashboard.tsx`, `PersonnelManager.tsx`).  JavaScript `Date`
values are abstracted to `Nat` timestamps, JS numbers to `Rat`/`Int`,
and the React state updates (`setTasks`, `setPersonnel`) to pure
functions `List Task → List Task` etc.  Rendering, modal state and
chart data are outside the claims and are not embedded.
-/

namespace TaskApp

/-- Task status union type: `'pending' | 'active' | 'completed'`. -/
inductive Status where
| pending
| active
| completed
deriving DecidableEq

/-- Priority union type: `'low' | 'medium' | 'high' | 'urgent'`. -/
inductive Priority where
| low
| medium
| high
| urgent
deriving DecidableEq

/-- The `Task` interface of `App.tsx`.  Optional `Date` fields become
`Option Nat`. -/
structure Task where
  id : String
  title : String
  description : String
  status : Status
  priority : Priority
  assignedTo : List String
  createdAt : Nat
  activatedAt : Option Nat := none
  completedAt : Option Nat := none
  estimatedHours : Rat
  category : String
deriving DecidableEq

/-- The `Personnel` interface of `App.tsx`. -/
structure Personnel where
  id : String
  name : String
  role : String
  department : String
  avatar : Option String := none
  active : Bool
deriving DecidableEq

/-- The string value a `Status` carries in the source. -/
def statusStr : Status → String
| Status.pending => "pending"
| Status.active => "active"
| Status.completed => "completed"

/-- The string value a `Priority` carries in the source. -/
def priorityStr : Priority → String
| Priority.low => "low"
| Priority.medium => "medium"
| Priority.high => "high"
| Priority.urgent => "urgent"

/-- Encoding of a JS `new Date(year, month, day, hour, minute)` literal as
an abstract timestamp.  Only distinctness matters to the claims. -/
def mkDate (year month day hour minute : Nat) : Nat :=
  (((year * 100 + month) * 100 + day) * 100 + hour) * 100 + minute

/-- Seed personnel list (`initialPersonnel` of `App.tsx`). -/
def initialPersonnel : List Personnel :=
  [ { id := "1", name := "Carlos Méndez", role := "Supervisor",
      department := "Producción", active := true },
    { id := "2", name := "Ana García", role := "Técnico",
      department := "Mantenimiento", active := true },
    { id := "3", name := "Luis Rodríguez", role := "Operador",
      department := "Producción", active := true },
    { id := "4", name := "María López", role := "Ingeniera",
      department := "Calidad", active := true },
    { id := "5", name := "Pedro Sánchez", role := "Técnico",
      department := "Mantenimiento", active := false },
    { id := "6", name := "Carmen Vega", role := "Analista",
      department := "Calidad", active := true } ]

/-- Seed task with id `'2'` (`initialTasks` of `App.tsx`). -/
def iniTask2 : Task :=
  { id := "2", title := "Calibración de Equipos de Medición",
    description := "Calibración trimestral de todos los instrumentos de medición en el área de calidad",
    status := Status.pending, priority := Priority.medium,
    assignedTo := ["4", "6"], createdAt := mkDate 2025 0 9 7 0,
    estimatedHours := 6, category := "Calidad" }

/-- Seed task with id `'3'`. -/
def iniTask3 : Task :=
  { id := "3", title := "Mantenimiento Preventivo Compresor Principal",
    description := "Cambio de filtros, revisión de presiones y lubricación del compresor central",
    status := Status.completed, priority := Priority.urgent,
    assignedTo := ["2"], createdAt := mkDate 2025 0 7 6 0,
    activatedAt := some (mkDate 2025 0 7 8 0),
    completedAt := some (mkDate 2025 0 7 12 30),
    estimatedHours := 3, category := "Mantenimiento" }

/-- Seed task with id `'4'`. -/
def iniTask4 : Task :=
  { id := "4", title := "Capacitación en Seguridad Industrial",
    description := "Sesión mensual de capacitación en procedimientos de seguridad para nuevos empleados",
    status := Status.pending, priority := Priority.medium,
    assignedTo := ["1"], createdAt := mkDate 2025 0 10 14 0,
    estimatedHours := 2, category := "Seguridad" }

/-- Seed task with id `'6'`. -/
def iniTask6 : Task :=
  { id := "6", title := "Revisión Sistema Eléctrico",
    description := "Inspección y pruebas del sistema eléctrico principal de la planta",
    status := Status.completed, priority := Priority.high,
    assignedTo := ["2", "5"], createdAt := mkDate 2025 0 5 9 0,
    activatedAt := some (mkDate 2025 0 5 10 0),
    completedAt := some (mkDate 2025 0 6 2 0),
    estimatedHours := 12, category := "Mantenimiento" }

/-- Seed task with id `'7'`. -/
def iniTask7 : Task :=
  { id := "7", title := "Control de Calidad Lote 2025-001",
    description := "Análisis y verificación del primer lote de producción del año",
    status := Status.completed, priority := Priority.medium,
    assignedTo := ["4"], createdAt := mkDate 2025 0 4 7 0,
    activatedAt := some (mkDate 2025 0 4 8 30),
    completedAt := some (mkDate 2025 0 4 16 45),
    estimatedHours := 6, category := "Calidad" }

/-- Seed task list (`initialTasks` of `App.tsx`). -/
def initialTasks : List Task := [iniTask2, iniTask3, iniTask4, iniTask6, iniTask7]

/-- The fields of `Omit<Task, 'id' | 'createdAt' | 'activatedAt' | 'completedAt'>`:
the payload of `handleTaskSubmit`. -/
structure TaskInput where
  title : String
  description : String
  status : Status
  priority : Priority
  assignedTo : List String
  estimatedHours : Rat
  category : String
deriving DecidableEq

/-- Per-task update of `handleStatusChange` in `App.tsx`: the
`updates : Partial<Task>` object, spread over the matching task. -/
def applyStatus (now : Nat) (newStatus : Status) (task : Task) : Task :=
  if newStatus = Status.active ∧ task.status = Status.pending then
    { task with status := newStatus, activatedAt := some now }
  else if newStatus = Status.completed then
    { task with status := newStatus, completedAt := some now }
  else if newStatus = Status.pending ∧ task.status = Status.active then
    { task with status := newStatus, activatedAt := none }
  else
    { task with status := newStatus }

/-- `handleStatusChange(taskId, newStatus)`: maps `applyStatus` over the
matching task, leaving the rest untouched. -/
def setStatus (taskId : String) (newStatus : Status) (now : Nat)
    (tasks : List Task) : List Task :=
  tasks.map fun task => if task.id = taskId then applyStatus now newStatus task else task

/-- The `newTask` object built in the create branch of `handleTaskSubmit`:
`{...taskData, id, createdAt: new Date()}`, the optional timestamps absent. -/
def buildTask (input : TaskInput) (newId : String) (now : Nat) : Task :=
  { id := newId, title := input.title, description := input.description,
    status := input.status, priority := input.priority,
    assignedTo := input.assignedTo, createdAt := now,
    activatedAt := none, completedAt := none,
    estimatedHours := input.estimatedHours, category := input.category }

/-- Create branch of `handleTaskSubmit`: `[...prev, newTask]`. -/
def createTask (input : TaskInput) (newId : String) (now : Nat)
    (tasks : List Task) : List Task :=
  tasks ++ [buildTask input newId now]

/-- `{...task, ...taskData}` in the edit branch of `handleTaskSubmit`:
every field of the payload overwrites the task's, the four omitted fields
keep their values. -/
def applyInput (input : TaskInput) (task : Task) : Task :=
  { task with
    title := input.title, description := input.description,
    status := input.status, priority := input.priority,
    assignedTo := input.assignedTo,
    estimatedHours := input.estimatedHours, category := input.category }

/-- Edit branch of `handleTaskSubmit` (the store's `updateTask`):
maps `applyInput` over the task matching the edited id. -/
def updateTask (taskId : String) (input : TaskInput) (tasks : List Task) : List Task :=
  tasks.map fun task => if task.id = taskId then applyInput input task else task

/-- Lowercasing a string character by character (JS `toLowerCase`). -/
def lowerStr (s : String) : String := String.mk (s.data.map Char.toLower)

/-- Whether the first character list starts the second (helper for the
substring test behind JS `includes`). -/
def leadsWith : List Char → List Char → Bool
| [], _ => true
| _ :: _, [] => false
| c :: cs, d :: ds => c == d && leadsWith cs ds

/-- Whether the first character list occurs contiguously inside the second. -/
def occursIn : List Char → List Char → Bool
| need, [] => need.isEmpty
| need, d :: ds => leadsWith need (d :: ds) || occursIn need ds

/-- JS `hay.includes(need)`: contiguous substring containment. -/
def strIncludes (hay need : String) : Bool := occursIn need.data hay.data

/-- The filter state of `App.tsx`: search term plus the four select
filters, each a string with `"all"` meaning no constraint. -/
structure FilterCriteria where
  searchTerm : String
  statusFilter : String
  priorityFilter : String
  categoryFilter : String
  personnelFilter : String
deriving DecidableEq

/-- The predicate body of the `tasks.filter` callback inside the
`filteredTasks` memo of `App.tsx`, early returns translated to nested
conditionals.  `searchLower` is the pre-lowered search term computed
once outside the callback. -/
def taskMatches (c : FilterCriteria) (searchLower : String) (task : Task) : Bool :=
  if c.searchTerm ≠ "" ∧
      ¬(strIncludes (lowerStr task.title) searchLower = true ∨
        strIncludes (lowerStr task.description) searchLower = true) then false
  else if c.statusFilter ≠ "all" ∧ statusStr task.status ≠ c.statusFilter then false
  else if c.priorityFilter ≠ "all" ∧ priorityStr task.priority ≠ c.priorityFilter then false
  else if c.categoryFilter ≠ "all" ∧ task.category ≠ c.categoryFilter then false
  else if c.personnelFilter ≠ "all" then
    if c.personnelFilter = "unassigned" ∧ 0 < task.assignedTo.length then false
    else if c.personnelFilter ≠ "unassigned" ∧ c.personnelFilter ∉ task.assignedTo then false
    else true
  else true

/-- The `filteredTasks` memo of `App.tsx` (the spec's
`listFilteredTasks`): early `[]` on an empty store, otherwise a filter
with the pre-lowered search term. -/
def filteredTasks (c : FilterCriteria) (tasks : List Task) : List Task :=
  if tasks.isEmpty then []
  else tasks.filter (taskMatches c (lowerStr c.searchTerm))

/-- The search clause as the spec words it: empty search term matches
every task, otherwise case-insensitive substring match against title or
description. -/
def searchHolds (c : FilterCriteria) (t : Task) : Prop :=
  c.searchTerm = "" ∨
    strIncludes (lowerStr t.title) (lowerStr c.searchTerm) = true ∨
    strIncludes (lowerStr t.description) (lowerStr c.searchTerm) = true

/-- The personnel clause as the spec words it: `"all"` matches every
task, `"unassigned"` matches tasks with empty `assignedTo`, any other
value is a membership test on `assignedTo`. -/
def personnelHolds (c : FilterCriteria) (t : Task) : Prop :=
  c.personnelFilter = "all" ∨
    (if c.personnelFilter = "unassigned" then t.assignedTo = []
     else c.personnelFilter ∈ t.assignedTo)

/-- The spec's reading of the filter: the conjunction (AND) of the five
clauses, each select matching everything at `"all"` and by exact
equality otherwise. -/
def specHolds (c : FilterCriteria) (t : Task) : Prop :=
  searchHolds c t ∧
  (c.statusFilter = "all" ∨ statusStr t.status = c.statusFilter) ∧
  (c.priorityFilter = "all" ∨ priorityStr t.priority = c.priorityFilter) ∧
  (c.categoryFilter = "all" ∨ t.category = c.categoryFilter) ∧
  personnelHolds c t

instance (c : FilterCriteria) (t : Task) : Decidable (specHolds c t) := by
  unfold specHolds searchHolds personnelHolds
  infer_instance

/-- The dashboard numbers the claims are about: the `stats` memo of
`Dashboard.tsx` plus the `efficiency` entry of its `metrics` memo.
The date-dependent `todayTasks` and the string-formatted `avgTime` are
outside every claim and not embedded. -/
structure DashboardStats where
  totalTasks : Nat
  pendingTasks : Nat
  activeTasks : Nat
  completedTasks : Nat
  activePersonnel : Nat
  urgentTasks : Nat
  completionRate : Rat
  efficiency : Int
deriving DecidableEq

/-- The `stats` and `metrics` computation of `Dashboard.tsx` (the spec's
`computeDashboardStats`), JS numbers embedded as exact rationals and
`Math.round` as `round` (half rounds up, as in JS for the non-negative
values arising here). -/
def computeDashboardStats (tasks : List Task) (personnel : List Personnel) :
    DashboardStats :=
  let totalTasks := tasks.length
  let pendingTasks := (tasks.filter fun t => decide (t.status = Status.pending)).length
  let activeTasks := (tasks.filter fun t => decide (t.status = Status.active)).length
  let completedTasks := (tasks.filter fun t => decide (t.status = Status.completed)).length
  let activePersonnel := (personnel.filter fun p => p.active).length
  let urgentTasks := (tasks.filter fun t =>
    decide (t.priority = Priority.urgent ∧ t.status ≠ Status.completed)).length
  let completionRate : Rat :=
    if 0 < totalTasks then ((completedTasks : Rat) / (totalTasks : Rat)) * 100 else 0
  let efficiency : Int :=
    if 0 < activeTasks then
      round (((completedTasks : Rat) / ((completedTasks : Rat) + (activeTasks : Rat))) * 100)
    else 100
  { totalTasks := totalTasks, pendingTasks := pendingTasks,
    activeTasks := activeTasks, completedTasks := completedTasks,
    activePersonnel := activePersonnel, urgentTasks := urgentTasks,
    completionRate := completionRate, efficiency := efficiency }

/-- The new-person form state handed to `handleAddPerson` in
`PersonnelManager.tsx`. -/
structure PersonnelInput where
  name : String
  role : String
  department : String
  active : Bool
deriving DecidableEq

/-- `handleAddPerson` of `PersonnelManager.tsx` (the spec's
`createPersonnel`): declines with no state change when a required field
trims to empty, otherwise appends a record under the freshly generated
id (`crypto.randomUUID`, here a parameter). -/
def createPersonnel (input : PersonnelInput) (newId : String)
    (personnel : List Personnel) : List Personnel :=
  if input.name.trim = "" ∨ input.role.trim = "" ∨ input.department.trim = "" then
    personnel
  else
    personnel ++ [{ id := newId, name := input.name, role := input.role,
                    department := input.department, avatar := none,
                    active := input.active }]

/-- A store mutation of the task collection: a create (`handleTaskSubmit`
without an editing task) or a status change (`handleStatusChange`). -/
inductive Op where
| create (input : TaskInput) (newId : String) (now : Nat)
| set (taskId : String) (newStatus : Status) (now : Nat)
deriving DecidableEq

/-- One store mutation applied to the task collection. -/
def applyOp : Op → List Task → List Task
| Op.create input newId now, tasks => createTask input newId now tasks
| Op.set taskId newStatus now, tasks => setStatus taskId newStatus now tasks

/-- A sequence of store mutations applied in order. -/
def runOps : List Op → List Task → List Task
| [], tasks => tasks
| op :: ops, tasks => runOps ops (applyOp op tasks)

/-- A task collection reachable from the seed data by create and
status-change operations. -/
def Reach (s : List Task) : Prop := ∃ ops : List Op, runOps ops initialTasks = s

/-- The status transitions of the spec's lifecycle table (§4.2): the ones
the UI offers (`canActivate`/`canPause`/`canComplete` in `TaskCard.tsx`
and `TaskDetail.tsx`) together with the table's direct
pending-to-completed edge. -/
def tableStep : Status → Status → Bool
| Status.pending, Status.active => true
| Status.active, Status.pending => true
| Status.active, Status.completed => true
| Status.pending, Status.completed => true
| _, _ => false

/-- A mutation the UI can actually issue on the given store: creation
hands over a pending task (`TaskForm` fixes `status: 'pending'` for a
new task) and a status change follows the lifecycle table. -/
def opOk (s : List Task) : Op → Prop
| Op.create input _ _ => input.status = Status.pending
| Op.set taskId newStatus _ => ∀ t ∈ s, t.id = taskId → tableStep t.status newStatus = true

/-- A trace of mutations each of which the UI can issue in the store it
meets. -/
def GoodTrace : List Op → List Task → Prop
| [], _ => True
| op :: ops, s => opOk s op ∧ GoodTrace ops (applyOp op s)

/-- A task collection reachable from the seed data by UI-issuable
mutations only. -/
def ReachTable (s : List Task) : Prop :=
  ∃ ops : List Op, GoodTrace ops initialTasks ∧ runOps ops initialTasks = s

/-- The status the store currently records under a task id. -/
def currentStatus (s : List Task) (taskId : String) : Option Status :=
  (s.find? fun t => decide (t.id = taskId)).map Task.status

/-- Whether a mutation pauses the given task: a status change to
`pending` hitting that task while its stored status is `active`. -/
def isPause (taskId : String) (s : List Task) : Op → Bool
| Op.set i Status.pending _ =>
    decide (i = taskId) && decide (currentStatus s taskId = some Status.active)
| _ => false

/-- Whether a trace ever pauses the given task, run from the given store. -/
def pausedInTrace (taskId : String) : List Op → List Task → Bool
| [], _ => false
| op :: ops, s => isPause taskId s op || pausedInTrace taskId ops (applyOp op s)

/-- Trace exhibiting the permissive status writes: complete task `'2'`,
then move it back to `pending`. -/
def cexOps : List Op := [Op.set "2" Status.completed 100, Op.set "2" Status.pending 200]

/-- Task `'2'` after the trace `cexOps`: status `pending` yet
`completedAt` still present. -/
def badTask : Task := applyStatus 200 Status.pending (applyStatus 100 Status.completed iniTask2)

/-- Trace activating, completing, then un-completing task `'2'`; it never
pauses the task. -/
def c2ops : List Op :=
  [Op.set "2" Status.active 10, Op.set "2" Status.completed 20, Op.set "2" Status.pending 30]

/-- Task `'2'` after the trace `c2ops`: status `pending` with
`activatedAt` present, reached without any pause. -/
def c2task : Task :=
  applyStatus 30 Status.pending (applyStatus 20 Status.completed (applyStatus 10 Status.active iniTask2))

/-- A minimal task with the given status, for the dashboard scenario of
the spec's §8 (only the status matters to the metrics involved). -/
def scenTask (st : Status) : Task :=
  { id := "s", title := "", description := "", status := st,
    priority := Priority.low, assignedTo := [], createdAt := 0,
    estimatedHours := 1, category := "" }

/-- Scenario C of the spec:
`[{status:pending},{status:active},{status:completed},{status:completed}]`. -/
def scenTasks : List Task :=
  [scenTask Status.pending, scenTask Status.active,
   scenTask Status.completed, scenTask Status.completed]

/-- The completed-iff-completedAt consistency of a task collection. -/
def InvC (s : List Task) : Prop :=
  ∀ t ∈ s, (t.status = Status.completed ↔ t.completedAt ≠ none)

/-- If a task was activated and is not currently active, it carries a
completion stamp: the per-task invariant behind claim C2. -/
def InvJ (s : List Task) : Prop :=
  ∀ t ∈ s, t.activatedAt ≠ none → t.status ≠ Status.active → t.completedAt ≠ none

lemma applyStatus_invC {t : Task} {ns : Status} {now : Nat}
    (hstep : tableStep t.status ns = true)
    (ht : t.status = Status.completed ↔ t.completedAt ≠ none) :
    ((applyStatus now ns t).status = Status.completed ↔
      (applyStatus now ns t).completedAt ≠ none) := by
  unfold applyStatus
  cases hs : t.status <;> cases ns <;> simp_all [tableStep]

lemma invC_applyOp {s : List Task} {op : Op} (hI : InvC s) (hok : opOk s op) :
    InvC (applyOp op s) := by
  cases op with
  | create input newId now =>
    intro t ht
    rcases List.mem_append.mp ht with h | h
    · exact hI t h
    · have hb : t = buildTask input newId now := by simpa using h
      subst hb
      simp [buildTask, opOk] at hok ⊢
      simp [hok]
  | set taskId ns now =>
    intro t ht
    rcases List.mem_map.mp ht with ⟨u, hu, he⟩
    subst he
    by_cases hid : u.id = taskId
    · rw [if_pos hid]
      exact applyStatus_invC (hok u hu hid) (hI u hu)
    · rw [if_neg hid]
      exact hI u hu

lemma goodTrace_invC : ∀ (ops : List Op) (s : List Task),
    InvC s → GoodTrace ops s → InvC (runOps ops s)
| [], _, hI, _ => hI
| _ :: ops, _, hI, hg => goodTrace_invC ops _ (invC_applyOp hI hg.1) hg.2

lemma invC_initial : InvC initialTasks := by
  unfold InvC
  decide

lemma applyStatus_invJ {t : Task} (now : Nat) (ns : Status)
    (ht : t.activatedAt ≠ none → t.status ≠ Status.active → t.completedAt ≠ none) :
    (applyStatus now ns t).activatedAt ≠ none →
      (applyStatus now ns t).status ≠ Status.active →
        (applyStatus now ns t).completedAt ≠ none := by
  unfold applyStatus
  cases ns with
  | active =>
    by_cases hp : t.status = Status.pending <;> intro h1 h2 <;> simp_all
  | completed =>
    intro h1 h2
    simp
  | pending =>
    by_cases ha : t.status = Status.active
    · rw [if_neg (by simp), if_neg (by simp), if_pos ⟨rfl, ha⟩]
      intro h1 _
      exact absurd rfl h1
    · rw [if_neg (by simp), if_neg (by simp), if_neg (fun hc => ha hc.2)]
      intro h1 _
      exact ht h1 ha

lemma invJ_applyOp {s : List Task} (op : Op) (hI : InvJ s) : InvJ (applyOp op s) := by
  cases op with
  | create input newId now =>
    intro t ht
    rcases List.mem_append.mp ht with h | h
    · exact hI t h
    · have hb : t = buildTask input newId now := by simpa using h
      subst hb
      intro h1 _
      exact absurd rfl h1
  | set taskId ns now =>
    intro t ht
    rcases List.mem_map.mp ht with ⟨u, hu, he⟩
    subst he
    by_cases hid : u.id = taskId
    · rw [if_pos hid]
      exact applyStatus_invJ now ns (hI u hu)
    · rw [if_neg hid]
      exact hI u hu

lemma runOps_invJ : ∀ (ops : List Op) (s : List Task), InvJ s → InvJ (runOps ops s)
| [], _, hI => hI
| op :: ops, _, hI => runOps_invJ ops _ (invJ_applyOp op hI)

lemma invJ_initial : InvJ initialTasks := by
  unfold InvJ
  decide

set_option maxHeartbeats 1000000 in
lemma taskMatches_iff (c : FilterCriteria) (t : Task) :
    taskMatches c (lowerStr c.searchTerm) t = true ↔ specHolds c t := by
  unfold taskMatches specHolds searchHolds personnelHolds
  by_cases hu : c.personnelFilter = "unassigned" <;>
    simp only [hu] <;>
    split_ifs <;>
    simp_all [List.length_pos, Bool.not_eq_true, Bool.not_eq_false] <;>
    first
    | tauto
    | (cases hB : strIncludes (lowerStr t.title) (lowerStr c.searchTerm) <;> simp_all <;> tauto)

lemma taskMatches_eq_decide (c : FilterCriteria) (t : Task) :
    taskMatches c (lowerStr c.searchTerm) t = decide (specHolds c t) := by
  by_cases hs : specHolds c t
  · simp [hs, (taskMatches_iff c t).mpr hs]
  · have hf : taskMatches c (lowerStr c.searchTerm) t = false := by
      cases hm : taskMatches c (lowerStr c.searchTerm) t
      · rfl
      · exact absurd ((taskMatches_iff c t).mp hm) hs
    simp [hs, hf]

/-- C1 (counterexample): it is not true that in every store reachable by
create and status-change operations, `status == 'completed'` holds iff
`completedAt` is present — completing task `'2'` and then writing its
status back to `pending` leaves `completedAt` set on a `pending` task. -/
theorem completed_iff_completedAt_refuted :
    ¬ (∀ s, Reach s → ∀ t ∈ s, (t.status = Status.completed ↔ t.completedAt ≠ none)) := by
  intro h
  have hb := h (runOps cexOps initialTasks) ⟨cexOps, rfl⟩ badTask (by decide)
  have hc : badTask.status = Status.completed := hb.mpr (by decide)
  exact absurd hc (by decide)

/-- C1 (amended): for every task in every store reachable from the seed
data by createTask (which hands over a `pending` task) and by setStatus
operations following the lifecycle table (pending→active,
active→pending, active→completed, pending→completed),
`status == 'completed'` holds iff `completedAt` is present. -/
theorem completed_iff_completedAt_on_table (s : List Task) (hs : ReachTable s) :
    ∀ t ∈ s, (t.status = Status.completed ↔ t.completedAt ≠ none) := by
  obtain ⟨ops, hg, he⟩ := hs
  subst he
  exact goodTrace_invC ops initialTasks invC_initial hg

/-- C1 (witness): the amended invariant applied to the seed store and its
first task. -/
theorem completed_iff_completedAt_on_table_case :
    iniTask2.status = Status.completed ↔ iniTask2.completedAt ≠ none :=
  completed_iff_completedAt_on_table initialTasks ⟨[], trivial, rfl⟩ iniTask2 (by decide)

/-- C2 (counterexample): it is not true that a reachable `pending` task
with `activatedAt` present was necessarily paused (set to `pending` while
`active`) somewhere in its trace: activating, completing and then
un-completing task `'2'` produces such a task with no pause in the trace. -/
theorem pending_activated_only_by_pause_refuted :
    ¬ (∀ (ops : List Op) (t : Task), t ∈ runOps ops initialTasks →
        t.status = Status.pending → t.activatedAt ≠ none →
          pausedInTrace t.id ops initialTasks = true) := by
  intro h
  exact absurd (h c2ops c2task (by decide) (by decide) (by decide)) (by decide)

/-- C2 (amended): a reachable task state with status `pending` and
`activatedAt` present is not produced by pausing — a setStatus to
`pending` applied to an `active` task clears `activatedAt` — it arises
only through the permissive status write out of `completed`, so any such
task carries a completion stamp: its `completedAt` is present. -/
theorem pending_activated_passed_completed :
    (∀ s, Reach s → ∀ t ∈ s, t.status = Status.pending → t.activatedAt ≠ none →
        t.completedAt ≠ none) ∧
    (∀ (t : Task) (now : Nat), t.status = Status.active →
        (applyStatus now Status.pending t).activatedAt = none) := by
  constructor
  · rintro s ⟨ops, rfl⟩ t ht hp ha
    exact runOps_invJ ops initialTasks invJ_initial t ht ha (by simp [hp])
  · intro t now h
    simp [applyStatus, h]

/-- C3: a status change to `completed` stamps `completedAt` with the
current time and writes status `completed`, whatever the source status,
and leaves every other field — `activatedAt` in particular — unchanged;
so a task completed directly from `pending` keeps `activatedAt` absent. -/
theorem setStatus_completed_stamps (tasks : List Task) (taskId : String) (now : Nat)
    (i : Nat) (t : Task) (hi : tasks[i]? = some t) (hid : t.id = taskId) :
    (setStatus taskId Status.completed now tasks)[i]? =
      some { t with status := Status.completed, completedAt := some now } := by
  unfold setStatus
  rw [List.getElem?_map, hi]
  simp [hid, applyStatus]

/-- C3 (witness): completing the pending task `'2'` of the seed store
directly stamps `completedAt` and leaves `activatedAt` absent. -/
theorem setStatus_completed_stamps_case :
    (setStatus "2" Status.completed 99 initialTasks)[0]? =
      some { iniTask2 with status := Status.completed, completedAt := some 99 } :=
  setStatus_completed_stamps initialTasks "2" 99 0 iniTask2 rfl rfl

/-- C4: on a `pending` task, a status change to `active` stamps
`activatedAt` and writes status `active`; a following status change to
`pending` clears `activatedAt` and writes status `pending`. -/
theorem activate_then_pause (t : Task) (n1 n2 : Nat) (h : t.status = Status.pending) :
    (applyStatus n1 Status.active t).status = Status.active ∧
    (applyStatus n1 Status.active t).activatedAt = some n1 ∧
    (applyStatus n2 Status.pending (applyStatus n1 Status.active t)).status = Status.pending ∧
    (applyStatus n2 Status.pending (applyStatus n1 Status.active t)).activatedAt = none := by
  simp [applyStatus, h]

/-- C4 (witness): the activate-then-pause round trip on the seed task
`'2'`. -/
theorem activate_then_pause_case :
    (applyStatus 7 Status.active iniTask2).status = Status.active ∧
    (applyStatus 7 Status.active iniTask2).activatedAt = some 7 ∧
    (applyStatus 8 Status.pending (applyStatus 7 Status.active iniTask2)).status = Status.pending ∧
    (applyStatus 8 Status.pending (applyStatus 7 Status.active iniTask2)).activatedAt = none :=
  activate_then_pause iniTask2 7 8 rfl

/-- C5: the filtered view equals the filter by the conjunction of the
five spec clauses — empty search term matching all, the three selects
matching all at `"all"` and by equality otherwise, personnel matching
empty assignments at `"unassigned"` and by membership otherwise — and it
is a sublist of the input, so the original relative order is preserved. -/
theorem filteredTasks_conjunction (c : FilterCriteria) (tasks : List Task) :
    filteredTasks c tasks = tasks.filter (fun t => decide (specHolds c t)) ∧
    List.Sublist (filteredTasks c tasks) tasks := by
  constructor
  · unfold filteredTasks
    cases tasks with
    | nil => simp
    | cons a l =>
      rw [if_neg (by simp)]
      exact List.filter_congr fun t _ => taskMatches_eq_decide c t
  · unfold filteredTasks
    cases tasks with
    | nil => simp
    | cons a l =>
      rw [if_neg (by simp)]
      exact List.filter_sublist _

/-- C6: the efficiency metric is `100` whenever no task is `active`,
regardless of the completed count, and otherwise is
completed/(completed+active) as a percentage rounded to the nearest
integer (halves up); on Scenario C's statuses
`[pending, active, completed, completed]` the dashboard yields
`completionRate = 50` and `efficiency = 67`. -/
theorem efficiency_metric (tasks : List Task) (personnel : List Personnel) :
    ((tasks.filter fun t => decide (t.status = Status.active)).length = 0 →
        (computeDashboardStats tasks personnel).efficiency = 100) ∧
    (0 < (tasks.filter fun t => decide (t.status = Status.active)).length →
        (computeDashboardStats tasks personnel).efficiency =
          round ((((tasks.filter fun t => decide (t.status = Status.completed)).length : Rat) /
              (((tasks.filter fun t => decide (t.status = Status.completed)).length : Rat) +
                ((tasks.filter fun t => decide (t.status = Status.active)).length : Rat))) * 100)) ∧
    (computeDashboardStats scenTasks []).completionRate = 50 ∧
    (computeDashboardStats scenTasks []).efficiency = 67 := by
  refine ⟨?_, ?_, ?_, ?_⟩
  · intro h
    show (if 0 < (tasks.filter fun t => decide (t.status = Status.active)).length then _ else 100) = _
    rw [h]
    simp
  · intro h
    show (if 0 < (tasks.filter fun t => decide (t.status = Status.active)).length then _ else _) = _
    rw [if_pos h]
  · simp [computeDashboardStats, scenTasks, scenTask, List.filter]
    norm_num
  · simp [computeDashboardStats, scenTasks, scenTask, List.filter]
    rw [round_eq]
    norm_num

/-- C7: the completion rate always lies in `[0, 100]` and is `0` on an
empty task collection. -/
theorem completionRate_bounds (tasks : List Task) (personnel : List Personnel) :
    0 ≤ (computeDashboardStats tasks personnel).completionRate ∧
    (computeDashboardStats tasks personnel).completionRate ≤ 100 ∧
    (tasks.length = 0 → (computeDashboardStats tasks personnel).completionRate = 0) := by
  have hc : (computeDashboardStats tasks personnel).completionRate =
      if 0 < tasks.length then
        (((tasks.filter fun t => decide (t.status = Status.completed)).length : Rat) /
          (tasks.length : Rat)) * 100
      else 0 := rfl
  rw [hc]
  split_ifs with h
  · have hle : (((tasks.filter fun t => decide (t.status = Status.completed)).length : Rat)) ≤
        (tasks.length : Rat) := by
      exact_mod_cast List.length_filter_le _ _
    have hpos : (0 : Rat) < (tasks.length : Rat) := by exact_mod_cast h
    have hdiv : (((tasks.filter fun t => decide (t.status = Status.completed)).length : Rat) /
        (tasks.length : Rat)) ≤ 1 := (div_le_one hpos).mpr hle
    refine ⟨by positivity, ?_, ?_⟩
    · nlinarith
    · intro h0
      omega
  · exact ⟨le_refl 0, by norm_num, fun _ => rfl⟩

/-- C8: editing replaces every field of the matching task with the
submitted input except `id`, `createdAt`, `activatedAt` and
`completedAt`, which keep their previous values, and an id matching no
task leaves the collection unchanged. -/
theorem updateTask_frame (taskId : String) (input : TaskInput) (tasks : List Task) :
    ((∀ t ∈ tasks, t.id ≠ taskId) → updateTask taskId input tasks = tasks) ∧
    (∀ (i : Nat) (t : Task), tasks[i]? = some t → t.id = taskId →
        (updateTask taskId input tasks)[i]? = some (applyInput input t)) ∧
    (∀ (i : Nat) (t : Task), tasks[i]? = some t → t.id ≠ taskId →
        (updateTask taskId input tasks)[i]? = some t) ∧
    (∀ t : Task, (applyInput input t).id = t.id ∧
      (applyInput input t).createdAt = t.createdAt ∧
      (applyInput input t).activatedAt = t.activatedAt ∧
      (applyInput input t).completedAt = t.completedAt ∧
      (applyInput input t).title = input.title ∧
      (applyInput input t).description = input.description ∧
      (applyInput input t).status = input.status ∧
      (applyInput input t).priority = input.priority ∧
      (applyInput input t).assignedTo = input.assignedTo ∧
      (applyInput input t).estimatedHours = input.estimatedHours ∧
      (applyInput input t).category = input.category) := by
  refine ⟨?_, ?_, ?_, ?_⟩
  · intro h
    unfold updateTask
    induction tasks with
    | nil => rfl
    | cons a l ih =>
      simp only [List.map_cons]
      rw [if_neg (h a (List.mem_cons_self a l)),
        ih (fun t ht => h t (List.mem_cons_of_mem a ht))]
  · intro i t hi he
    unfold updateTask
    rw [List.getElem?_map, hi]
    simp [he]
  · intro i t hi hne
    unfold updateTask
    rw [List.getElem?_map, hi]
    simp [hne]
  · intro t
    simp [applyInput]

/-- C9: personnel creation declines with no state change when name, role
or department trims to empty, and otherwise appends exactly one record
carrying the freshly generated id and the submitted fields. -/
theorem createPersonnel_validates (input : PersonnelInput) (newId : String)
    (ps : List Personnel) :
    ((input.name.trim = "" ∨ input.role.trim = "" ∨ input.department.trim = "") →
        createPersonnel input newId ps = ps) ∧
    (¬ (input.name.trim = "" ∨ input.role.trim = "" ∨ input.department.trim = "") →
        createPersonnel input newId ps =
          ps ++ [{ id := newId, name := input.name, role := input.role,
                   department := input.department, avatar := none,
                   active := input.active }]) := by
  constructor <;> intro h <;> simp [createPersonnel, h]

/-- C10: a status change preserves the length and order of the task
list, leaves every task with a different id untouched, and rewrites the
matching task through `applyStatus`, which can modify only `status`,
`activatedAt` and `completedAt` — all other fields are unchanged. -/
theorem setStatus_frame (taskId : String) (ns : Status) (now : Nat) (tasks : List Task) :
    (setStatus taskId ns now tasks).length = tasks.length ∧
    (∀ (i : Nat) (t : Task), tasks[i]? = some t → t.id ≠ taskId →
        (setStatus taskId ns now tasks)[i]? = some t) ∧
    (∀ (i : Nat) (t : Task), tasks[i]? = some t → t.id = taskId →
        (setStatus taskId ns now tasks)[i]? = some (applyStatus now ns t)) ∧
    (∀ t : Task, (applyStatus now ns t).id = t.id ∧
      (applyStatus now ns t).title = t.title ∧
      (applyStatus now ns t).description = t.description ∧
      (applyStatus now ns t).priority = t.priority ∧
      (applyStatus now ns t).assignedTo = t.assignedTo ∧
      (applyStatus now ns t).category = t.category ∧
      (applyStatus now ns t).estimatedHours = t.estimatedHours ∧
      (applyStatus now ns t).createdAt = t.createdAt) := by
  refine ⟨?_, ?_, ?_, ?_⟩
  · simp [setStatus]
  · intro i t hi hne
    unfold setStatus
    rw [List.getElem?_map, hi]
    simp [hne]
  · intro i t hi he
    unfold setStatus
    rw [List.getElem?_map, hi]
    simp [he]
  · intro t
    unfold applyStatus
    split_ifs <;> simp

end TaskApp
